import Mathlib

/-!
Shallow embedding of the Billboard Hot-100 top-ten-singles scraper
(`utils/get_data.py`) and of the consumer interface (`billboard_analysis.py`,
`load_data`).  Pure string and list functions model the pandas column
operations row by row; machine-level concerns (network, HTML parsing) are
modelled by a `fetch : String → Table` parameter supplying the parsed table
of a page.
-/

namespace Billboard

/-! ### Character and digit-string utilities -/

/-- Numeric value of a decimal digit character. -/
def charVal (c : Char) : Nat := c.toNat - 48

/-- Parse a character list that must consist entirely of decimal digits
(the behaviour of `int(...)` / `pd.to_numeric` on the digit strings the
pipeline produces); any other input yields `none`. -/
def parseDigits (l : List Char) : Option Nat :=
  if l = [] then none
  else if l.all Char.isDigit then some (l.foldl (fun a c => a * 10 + charVal c) 0)
  else none

/-- The decimal digit character for `n < 10` (clamped at `'9'`). -/
def digitChar (n : Nat) : Char :=
  match n with
  | 0 => '0'
  | 1 => '1'
  | 2 => '2'
  | 3 => '3'
  | 4 => '4'
  | 5 => '5'
  | 6 => '6'
  | 7 => '7'
  | 8 => '8'
  | _ => '9'

/-- Fuel-driven decimal printer; `fuel` bounds the number of digits. -/
def natToStrAux : Nat → Nat → List Char
  | 0, _ => []
  | fuel + 1, n =>
    if n < 10 then [digitChar n]
    else natToStrAux fuel (n / 10) ++ [digitChar (n % 10)]

/-- Decimal digits of `n` (most significant first). -/
def natToStrChars (n : Nat) : List Char := natToStrAux (n + 1) n

/-- Decimal rendering of a natural number, modelling Python `str(n)`. -/
def natToStr (n : Nat) : String := String.mk (natToStrChars n)

/-- Two-digit zero-padded rendering, used for ISO date serialization. -/
def pad2 (n : Nat) : List Char :=
  if n < 10 then '0' :: natToStrChars n else natToStrChars n

/-- Split a character list on a separator character, modelling Python
`str.split(sep)`: the result always has one more part than there are
separators. -/
def splitOnChar (sep : Char) : List Char → List (List Char)
  | [] => [[]]
  | c :: rest =>
    match splitOnChar sep rest with
    | [] => []
    | h :: t => if c = sep then [] :: h :: t else (c :: h) :: t

/-- Model of `" ".join(cells)`: cells separated by single spaces. -/
def joinSpace : List String → List Char
  | [] => []
  | [s] => s.toList
  | s :: rest => s.toList ++ ' ' :: joinSpace rest

/-- Index of the last `')'` in a character list, if any. -/
def lastCloseIdx (l : List Char) : Option Nat :=
  match l.reverse.findIdx? (fun c => c = ')') with
  | none => none
  | some k => some (l.length - 1 - k)

/-- Model of `re.sub(r'\(.*\)', '', s)`: the greedy pattern removes the span
from the first `'('` to the last `')'` after it (a single substitution,
since no `')'` can remain to the right of a greedy match). -/
def stripParen (l : List Char) : List Char :=
  match l.findIdx? (fun c => c = '(') with
  | none => l
  | some i =>
    match lastCloseIdx (l.drop i) with
    | none => l
    | some j => l.take i ++ (l.drop i).drop (j + 1)

/-- Fuel-driven worker for `stripBrackets`; the fuel bounds the number of
characters examined, so `l.length` is always sufficient. -/
def stripBracketsFuel : Nat → List Char → List Char
  | 0, l => l
  | fuel + 1, l =>
    match l with
    | [] => []
    | c :: rest =>
      if c = '[' then
        match rest.drop (rest.takeWhile Char.isDigit).length with
        | ']' :: rest2 =>
          if rest.takeWhile Char.isDigit = [] then c :: stripBracketsFuel fuel rest
          else stripBracketsFuel fuel rest2
        | _ => c :: stripBracketsFuel fuel rest
      else c :: stripBracketsFuel fuel rest

/-- Model of `re.sub(r'\[\d+\]', '', s)`: every bracketed digit run such as
`[12]` is removed. -/
def stripBrackets (l : List Char) : List Char := stripBracketsFuel l.length l

/-- Whitespace test for the trimming step of `.str.strip()`. -/
def isSpaceChar (c : Char) : Bool := c = ' ' || c = '\t' || c = '\n' || c = '\r'

/-- Model of `str.strip()`: drop leading and trailing whitespace. -/
def trimChars (l : List Char) : List Char :=
  ((l.dropWhile isSpaceChar).reverse.dropWhile isSpaceChar).reverse

/-- Date-cell cleaning from `scrape_data`: drop any parenthesised substring,
drop bracketed citation markers, then trim surrounding whitespace. -/
def cleanDate (s : String) : String :=
  String.mk (trimChars (stripBrackets (stripParen s.toList)))

/-- Model of `.str.extract(r'(\d+)')` followed by `astype(int)`: the first
maximal run of decimal digits, converted to a number; `none` when the text
contains no digit. -/
def firstRunNat : List Char → Option Nat
  | [] => none
  | c :: rest =>
    if c.isDigit then
      some (((c :: rest).takeWhile Char.isDigit).foldl (fun a d => a * 10 + charVal d) 0)
    else firstRunNat rest

/-- Do the first four characters exist and are they all decimal digits? -/
def fourDigitsAt : List Char → Bool
  | a :: b :: c :: d :: _ => a.isDigit && b.isDigit && c.isDigit && d.isDigit
  | _ => false

/-- Does the second list start with the first one? -/
def listStartsWith : List Char → List Char → Bool
  | [], _ => true
  | _ :: _, [] => false
  | p :: ps, c :: cs => p = c && listStartsWith ps cs

/-- The literal part of the sentinel pattern `Singles from \d{4}`. -/
def singlesFromChars : List Char := "Singles from ".toList

/-- Does the sentinel pattern match at the head of the list? -/
def sentinelAt (l : List Char) : Bool :=
  listStartsWith singlesFromChars l && fourDigitsAt (l.drop 13)

/-- Model of `str.contains(r"Singles from \d{4}")`: does the pattern match
anywhere in the text? -/
def containsSinglesFrom : List Char → Bool
  | [] => false
  | c :: rest => sentinelAt (c :: rest) || containsSinglesFrom rest

/-- Model of `re.search(r"\d{4}", s)` + `int(...)`: the number formed by the
leftmost four consecutive decimal digits, if any. -/
def firstFourDigits : List Char → Option Nat
  | [] => none
  | c :: rest =>
    if fourDigitsAt (c :: rest) then
      some (((c :: rest).take 4).foldl (fun a d => a * 10 + charVal d) 0)
    else firstFourDigits rest

/-! ### Calendar dates -/

/-- A calendar date (`pd.Timestamp` at day granularity). -/
structure Date where
  year : Nat
  month : Nat
  day : Nat
deriving DecidableEq

/-- Gregorian leap-year test. -/
def isLeap (y : Nat) : Bool := (y % 4 == 0 && y % 100 != 0) || y % 400 == 0

/-- Number of days in a month of a given year. -/
def daysInMonth (y m : Nat) : Nat :=
  match m with
  | 2 => if isLeap y then 29 else 28
  | 4 => 30
  | 6 => 30
  | 9 => 30
  | 11 => 30
  | _ => 31

/-- Is `(y, m, d)` a calendar date representable as a `pd.Timestamp`
(whose nanosecond range covers the years 1678-2261)? -/
def validDateNums (y m d : Nat) : Bool :=
  decide (1 ≤ m) && decide (m ≤ 12) && decide (1 ≤ d) &&
    decide (d ≤ daysInMonth y m) && decide (1678 ≤ y) && decide (y ≤ 2261)

/-- Validity of a `Date` value. -/
def Date.valid (dt : Date) : Bool := validDateNums dt.year dt.month dt.day

/-- Build a date after validation, as `pd.to_datetime(..., errors='coerce')`
does: invalid component combinations produce `none` (NaT). -/
def mkDate (y m d : Nat) : Option Date :=
  if validDateNums y m d then some ⟨y, m, d⟩ else none

/-- English month names, as they appear in the source tables. -/
def monthNum (s : String) : Option Nat :=
  if s = "January" then some 1
  else if s = "February" then some 2
  else if s = "March" then some 3
  else if s = "April" then some 4
  else if s = "May" then some 5
  else if s = "June" then some 6
  else if s = "July" then some 7
  else if s = "August" then some 8
  else if s = "September" then some 9
  else if s = "October" then some 10
  else if s = "November" then some 11
  else if s = "December" then some 12
  else none

/-- Parse an ISO `YYYY-MM-DD` token. -/
def parseIso (l : List Char) : Option Date :=
  match splitOnChar '-' l with
  | [ys, ms, ds] =>
    match parseDigits ys, parseDigits ms, parseDigits ds with
    | some y, some m, some d => mkDate y m d
    | _, _, _ => none
  | _ => none

/-- Model of `pd.to_datetime(s, errors='coerce')` on the two textual date
shapes the pipeline produces: `"<Month> <day> <year>"` (scraped cells with
the year appended) and ISO `"YYYY-MM-DD"` (reloaded CSV cells).  Any other
shape coerces to `none` (NaT). -/
def parseDate (s : String) : Option Date :=
  match splitOnChar ' ' s.toList with
  | [t] => parseIso t
  | [ms, ds, ys] =>
    match monthNum (String.mk ms), parseDigits ds, parseDigits ys with
    | some m, some d, some y => mkDate y m d
    | _, _, _ => none
  | _ => none

/-- ISO serialization of a date, the calendar-date form in which a
datetime column reaches the CSV file. -/
def isoChars (dt : Date) : List Char :=
  natToStrChars dt.year ++ '-' :: (pad2 dt.month ++ '-' :: pad2 dt.day)

/-- `isoChars` as a string. -/
def isoStr (dt : Date) : String := String.mk (isoChars dt)

/-- Day number of a date (days since the civil epoch), used for the
"lag to peak" duration that `load_data` derives. -/
def dayNumber (dt : Date) : Nat :=
  let y := if dt.month ≤ 2 then dt.year - 1 else dt.year
  let era := y / 400
  let yoe := y % 400
  let mp := (dt.month + 9) % 12
  let doy := (153 * mp + 2) / 5 + dt.day - 1
  let doe := yoe * 365 + yoe / 4 - yoe / 100 + doy
  era * 146097 + doe

/-! ### Data model of the scraper -/

/-- A raw table row: the ordered cell texts as `pd.read_html` yields them
(sentinel rows have the marker text replicated across all columns by the
`colspan` conversion).  The `Ref = None` and `Year = NA` columns that the
code appends before the sentinel scan stringify to digit-free text at the
end of the row, so they affect neither the sentinel mask nor the year
extraction and are not part of the cell list. -/
abbrev RawRow := List String

/-- A fetched and parsed listing-page table: its column count (6 when the
`Ref` column is absent) and its data rows. -/
structure Table where
  ncols : Nat
  rows : List RawRow

/-- Sentinel mask of one row (`row.astype(str).str.contains(r"Singles from
\d{4}").any()`): does any cell contain the marker pattern? -/
def isSentinelRow (r : RawRow) : Bool := r.any (fun s => containsSinglesFrom s.toList)

/-- Year extraction from a sentinel row
(`int(re.search(r"\d{4}", " ".join(row.astype(str))).group())`). -/
def extractYear (r : RawRow) : Option Nat := firstFourDigits (joinSpace r)

/-- The `Year` column right before forward-filling: uniformly the URL year
when no row matches the sentinel mask, otherwise the extracted year at
sentinel positions and `NA` elsewhere. -/
def initialYears (urlYear : Nat) (rows : List RawRow) : List (Option Nat) :=
  if rows.any isSentinelRow = false then rows.map (fun _ => some urlYear)
  else rows.map (fun r => if isSentinelRow r then extractYear r else none)

/-- Model of `Series.ffill`: each `none` entry is replaced by the nearest
preceding `some` value (or by `cur`, the value carried in from before the
list, initially `none`). -/
def ffill (cur : Option Nat) : List (Option Nat) → List (Option Nat)
  | [] => []
  | some v :: ys => some v :: ffill (some v) ys
  | none :: ys => cur :: ffill cur ys

/-- The sentinel-resolution stage of `scrape_data`: build the `Year` column,
forward-fill it, and drop the sentinel rows (`df = df[~mask]`), leaving each
surviving row paired with its assigned year. -/
def sentinelResolve (urlYear : Nat) (rows : List RawRow) : List (RawRow × Option Nat) :=
  (rows.zip (ffill none (initialYears urlYear rows))).filter fun p => !isSentinelRow p.1

/-- The canonical typed record of the dataset. -/
structure NormalizedEntry where
  entryDate : Option Date
  singleName : Option String
  artists : String
  peak : Nat
  peakDate : Option Date
  weeks : Nat
  ref : Option String
  year : Option Nat
deriving DecidableEq

/-- Model of `df['Year'].astype(str)` on one cell: a populated year prints
as its digits, a missing one as `"<NA>"`. -/
def yearCellStr : Option Nat → String
  | none => "<NA>"
  | some y => natToStr y

/-- Model of `df['Single Name'].str.split('"').str[1]`: part at index 1 of
the quote-split, `none` (NaN) when out of range. -/
def singleNameOf (s : String) : Option String :=
  ((splitOnChar '"' s.toList).get? 1).map String.mk

/-- Row-wise view of the column normalizations in `scrape_data`: date
reconstruction (Peak Date always uses the URL year, Entry Date the row's
`Year` cell), quote-extraction of the single name, digit extraction and
integer coercion of Peak and Weeks in Top Ten (failing the row when a cell
has no digits), and the `Ref` default for six-column tables. -/
def normalizeRow (urlYear : Nat) (ncols : Nat) (p : RawRow × Option Nat) :
    Option NormalizedEntry :=
  match firstRunNat (p.1.getD 3 "").toList, firstRunNat (p.1.getD 5 "").toList with
  | some pk, some wk =>
    some
      { entryDate := parseDate (cleanDate (p.1.getD 0 "") ++ " " ++ yearCellStr p.2)
        singleName := singleNameOf (p.1.getD 1 "")
        artists := p.1.getD 2 ""
        peak := pk
        peakDate := parseDate (cleanDate (p.1.getD 4 "") ++ " " ++ natToStr urlYear)
        weeks := wk
        ref := if ncols = 6 then none else some (p.1.getD 6 "")
        year := p.2 }
  | _, _ => none

/-- Map a fallible function over a list, failing as a whole on the first
failure — the behaviour of a raising pandas column coercion. -/
def mapOption {α β : Type} (f : α → Option β) : List α → Option (List β)
  | [] => some []
  | x :: xs =>
    match f x, mapOption f xs with
    | some y, some ys => some (y :: ys)
    | _, _ => none

/-- Process one fetched table with a given URL-derived year: sentinel
resolution followed by row normalization; `none` when an integer coercion
raises. -/
def processTable (urlYear : Nat) (t : Table) : Option (List NormalizedEntry) :=
  mapOption (normalizeRow urlYear t.ncols) (sentinelResolve urlYear t.rows)

/-- Model of `int(url[-4:])`: the number formed by the last four characters
of the URL, `none` (a raised ValueError) when they are not digits. -/
def urlYearOf (url : String) : Option Nat :=
  parseDigits (url.toList.drop (url.toList.length - 4))

/-- Process one page of the loop body of `scrape_data`. -/
def processPage (fetch : String → Table) (url : String) : Option (List NormalizedEntry) :=
  match urlYearOf url with
  | none => none
  | some y => processTable y (fetch url)

/-- Python exception classes relevant to the pipeline: `TypeError` from
iterating over `None`, `ValueError` from a failed integer coercion. -/
inductive PyError where
  | typeError
  | valueError
deriving DecidableEq

/-- The `for url in urls` loop of `scrape_data` with its `all_data`
accumulator: per-page frames are appended in traversal order, and any page
failure aborts the whole loop. -/
def scrapeLoop (fetch : String → Table) :
    List String → List (List NormalizedEntry) → Option (List (List NormalizedEntry))
  | [], acc => some acc
  | url :: rest, acc =>
    match processPage fetch url with
    | none => none
    | some df => scrapeLoop fetch rest (acc ++ [df])

/-- `scrape_data(urls=None)`: iterating over `None` raises a `TypeError`
before any fetch; otherwise the loop runs and the collected frames are
concatenated (`pd.concat(all_data, ignore_index=True) if all_data else
pd.DataFrame()` — the join of an empty list is already empty). -/
def scrape_data (urls : Option (List String)) (fetch : String → Table) :
    Except PyError (List NormalizedEntry) :=
  match urls with
  | none => Except.error PyError.typeError
  | some us =>
    match scrapeLoop fetch us [] with
    | none => Except.error PyError.valueError
    | some allData => Except.ok allData.flatten

/-! ### Persister (`save_to_csv`) and consumer (`load_data`) -/

/-- Outcome of `save_to_csv`: either the "No data to save." early return
with no file touched, or a write of the given CSV content (header plus data
rows) to the given path, with the confirmation message. -/
inductive SaveOutcome where
  | noData (msg : String)
  | saved (path : String) (content : List (List String)) (msg : String)
deriving DecidableEq

/-- The fixed eight-name header row of the output file. -/
def csvHeader : List String :=
  ["Top Ten Entry Date", "Single Name", "Artist(s)", "Peak", "Peak Date",
   "Weeks in Top Ten", "Ref", "Year"]

/-- Output path: the `data` folder plus the supplied filename, defaulting
to a year-and-month-stamped name (`nowYM` stands in for
`datetime.now().strftime("%Y_%m")`). -/
def savePath (filename : Option String) (nowYM : String) : String :=
  "data/" ++ filename.getD ("billboard_data_" ++ nowYM ++ ".csv")

/-- CSV field of an optional string: missing values serialize as empty. -/
def csvOptStr : Option String → String
  | none => ""
  | some s => s

/-- CSV field of an optional date: NaT serializes as empty, a date in its
calendar-day ISO form. -/
def csvDate : Option Date → String
  | none => ""
  | some d => isoStr d

/-- CSV field of an optional number: NA serializes as empty. -/
def csvOptNat : Option Nat → String
  | none => ""
  | some n => natToStr n

/-- One CSV data row of an entry, in header order.  The comma/quote
escaping of the CSV layer round-trips each field text verbatim, so rows are
modelled directly as field lists. -/
def entryToRow (e : NormalizedEntry) : List String :=
  [csvDate e.entryDate, csvOptStr e.singleName, e.artists, natToStr e.peak,
   csvDate e.peakDate, natToStr e.weeks, csvOptStr e.ref, csvOptNat e.year]

/-- Model of `save_to_csv`: empty input short-circuits with the
"No data to save." message and no write; otherwise the header and the
serialized rows are written to the (possibly defaulted) path. -/
def save_to_csv (ds : List NormalizedEntry) (filename : Option String)
    (nowYM : String) : SaveOutcome :=
  if ds = [] then SaveOutcome.noData "No data to save."
  else
    SaveOutcome.saved (savePath filename nowYM) (csvHeader :: ds.map entryToRow)
      ("Data saved to " ++ savePath filename nowYM)

/-- The typed record `load_data` produces: every column re-parsed with
coercion (so every field may be missing), plus the two derived columns. -/
structure LoadedEntry where
  entryDate : Option Date
  singleName : Option String
  artists : Option String
  peak : Option Nat
  peakDate : Option Date
  weeks : Option Nat
  ref : Option String
  year : Option Nat
  decade : Option Nat
  lagToPeak : Option Int
deriving DecidableEq

/-- `pd.read_csv` on a text field: an empty field is NaN. -/
def strField (s : String) : Option String := if s = "" then none else some s

/-- `pd.to_numeric(..., errors='coerce')` on a field written by the
persister, whose numeric fields are plain digit runs. -/
def numField (s : String) : Option Nat := parseDigits s.toList

/-- Parse one CSV data row as `load_data` types it: dates through
`pd.to_datetime(..., errors='coerce')`, numbers through `pd.to_numeric(...,
errors='coerce')`, plus the derived decade bucket and lag-to-peak days. -/
def loadRow (r : List String) : LoadedEntry :=
  let ed := parseDate (r.getD 0 "")
  let pd := parseDate (r.getD 4 "")
  let yr := numField (r.getD 7 "")
  { entryDate := ed
    singleName := strField (r.getD 1 "")
    artists := strField (r.getD 2 "")
    peak := numField (r.getD 3 "")
    peakDate := pd
    weeks := numField (r.getD 5 "")
    ref := strField (r.getD 6 "")
    year := yr
    decade := yr.map (fun y => y / 10 * 10)
    lagToPeak :=
      match pd, ed with
      | some p, some e => some ((dayNumber p : Int) - (dayNumber e : Int))
      | _, _ => none }

/-- Model of `load_data`: read the CSV content (header row first), type the
columns, and derive `Decade` and `Lag to Peak`. -/
def load_data (content : List (List String)) : List LoadedEntry :=
  (content.drop 1).map loadRow

/-- The comparison tuple of a reloaded entry:
(Single Name, Artist(s), Peak, Weeks in Top Ten, Year). -/
def loadedKey (l : LoadedEntry) :
    Option String × Option String × Option Nat × Option Nat × Option Nat :=
  (l.singleName, l.artists, l.peak, l.weeks, l.year)

/-- The comparison tuple of an original entry, in the same shape. -/
def entryKey (e : NormalizedEntry) :
    Option String × Option String × Option Nat × Option Nat × Option Nat :=
  (e.singleName, some e.artists, some e.peak, some e.weeks, e.year)

/-- Well-formedness of a stored entry for the round-trip: present string
fields are non-empty (an empty string serializes to an empty CSV field,
which reloads as NaN) and stored dates are representable calendar dates. -/
def dateOk : Option Date → Bool
  | none => true
  | some d => d.valid

/-- See `dateOk`: the entry-level round-trip precondition. -/
def entryWf (e : NormalizedEntry) : Bool :=
  (e.singleName != some "") && (e.artists != "") && dateOk e.entryDate && dateOk e.peakDate

/-! ### Specification-side restatement of the sentinel rules -/

/-- Specification-side forward scan (§4.3 of the spec): walk the rows
carrying the year of the nearest preceding marker row (initially none);
each marker row is consumed and overrides the carried year, each data row
is emitted with the carried year. -/
def claimScan (cur : Option Nat) : List RawRow → List (RawRow × Option Nat)
  | [] => []
  | r :: rs =>
    if isSentinelRow r then claimScan (extractYear r) rs
    else (r, cur) :: claimScan cur rs

/-- Specification-side year assignment: with no marker row every row gets
the page's URL-derived year; otherwise each data row gets the year of the
nearest preceding marker (none when no marker precedes it), markers
excluded from the output. -/
def claimResolve (urlYear : Nat) (rows : List RawRow) : List (RawRow × Option Nat) :=
  if rows.any isSentinelRow then claimScan none rows
  else rows.map (fun r => (r, some urlYear))

/-! ### Concrete fixtures (tables as a page fetch would yield them) -/

/-- A plain data row of a listing table. -/
def dataRow1 : RawRow := ["January 6", "\"Song A\"", "Artist X", "3", "January 20", "5", ""]

/-- A sentinel row: the `colspan` conversion replicates the marker text
across all seven columns. -/
def markerRow : RawRow := List.replicate 7 "Singles from 2009"

/-- A second plain data row. -/
def dataRow2 : RawRow := ["February 3", "\"Song B\"", "Artist Y", "1", "February 10", "4", ""]

/-- A multi-year table: a data row before the first marker, the marker,
then a data row after it. -/
def cexTable : Table := ⟨7, [dataRow1, markerRow, dataRow2]⟩

/-- Fetch stub returning `cexTable` for every URL. -/
def cexFetch : String → Table := fun _ => cexTable

/-- A single-year table with one data row and no marker. -/
def goodTable : Table := ⟨7, [dataRow1]⟩

/-- The normalized entry that `dataRow1` yields on a page with URL year
2010 and no markers. -/
def goodEntry : NormalizedEntry :=
  { entryDate := some ⟨2010, 1, 6⟩
    singleName := some "Song A"
    artists := "Artist X"
    peak := 3
    peakDate := some ⟨2010, 1, 20⟩
    weeks := 5
    ref := some ""
    year := some 2010 }

/-- A row whose "Weeks in Top Ten" cell has no digits. -/
def badRow : RawRow := ["January 6", "\"Song C\"", "Artist Z", "2", "January 9", "n/a", ""]

/-- A table containing the digit-free row. -/
def badTable : Table := ⟨7, [badRow]⟩

/-- Fetch stub returning `badTable` for every URL. -/
def badFetch : String → Table := fun _ => badTable

/-- A table consisting of a single sentinel row, which yields zero entries. -/
def allMarkerTable : Table := ⟨7, [markerRow]⟩

/-- Fetch stub returning `allMarkerTable` for every URL. -/
def markerFetch : String → Table := fun _ => allMarkerTable

/-- An entry whose Single Name is the empty string (not null). -/
def emptyNameEntry : NormalizedEntry :=
  { entryDate := some ⟨2010, 1, 6⟩
    singleName := some ""
    artists := "Artist X"
    peak := 3
    peakDate := some ⟨2010, 1, 20⟩
    weeks := 5
    ref := none
    year := some 2010 }

/-! ### Lemmas: decimal printing and parsing -/

lemma isDigit_digitChar (k : Nat) (h : k < 10) : (digitChar k).isDigit = true := by
  interval_cases k <;> decide

lemma charVal_digitChar (k : Nat) (h : k < 10) : charVal (digitChar k) = k := by
  interval_cases k <;> decide

lemma natToStrAux_spec :
    ∀ fuel n, 0 < fuel → n < 10 ^ fuel →
      (natToStrAux fuel n).all Char.isDigit = true ∧
      natToStrAux fuel n ≠ [] ∧
      ∀ a : Nat, (natToStrAux fuel n).foldl (fun x c => x * 10 + charVal c) a =
        a * 10 ^ (natToStrAux fuel n).length + n := by
  intro fuel
  induction fuel with
  | zero => intro n h0 _; exact absurd h0 (lt_irrefl 0)
  | succ f ih =>
    intro n _ hn
    by_cases h10 : n < 10
    · refine ⟨?_, ?_, ?_⟩
      · simp [natToStrAux, h10, isDigit_digitChar n h10]
      · simp [natToStrAux, h10]
      · intro a
        simp only [natToStrAux, if_pos h10, List.foldl_cons, List.foldl_nil,
          List.length_cons, List.length_nil, pow_one, zero_add]
        rw [charVal_digitChar n h10]
    · have hf : 0 < f := by
        rcases Nat.eq_zero_or_pos f with hf0 | hf0
        · subst hf0; simp at hn; omega
        · exact hf0
      have hdiv : n / 10 < 10 ^ f := by
        have hlt : n < 10 ^ f * 10 := by
          have := hn; rwa [pow_succ] at this
        exact (Nat.div_lt_iff_lt_mul (by norm_num)).mpr hlt
      obtain ⟨hall, hne, hfold⟩ := ih (n / 10) hf hdiv
      refine ⟨?_, ?_, ?_⟩
      · simp [natToStrAux, h10, List.all_append, hall,
          isDigit_digitChar (n % 10) (Nat.mod_lt n (by norm_num))]
      · simp [natToStrAux, h10]
      · intro a
        simp only [natToStrAux, if_neg h10]
        rw [List.foldl_append, hfold a]
        simp only [List.foldl_cons, List.foldl_nil, List.length_append,
          List.length_cons, List.length_nil, zero_add]
        rw [charVal_digitChar (n % 10) (Nat.mod_lt n (by norm_num))]
        have hdm : 10 * (n / 10) + n % 10 = n := Nat.div_add_mod n 10
        have expand :
            (a * 10 ^ (natToStrAux f (n / 10)).length + n / 10) * 10 + n % 10 =
              a * 10 ^ (natToStrAux f (n / 10)).length * 10 + (10 * (n / 10) + n % 10) := by
          ring
        rw [expand, hdm, pow_succ]
        ring

lemma natToStrChars_spec (n : Nat) :
    (natToStrChars n).all Char.isDigit = true ∧
    natToStrChars n ≠ [] ∧
    ∀ a : Nat, (natToStrChars n).foldl (fun x c => x * 10 + charVal c) a =
      a * 10 ^ (natToStrChars n).length + n := by
  have hlt : n < 10 ^ (n + 1) := by
    have h1 : n < 10 ^ n := Nat.lt_pow_self (by norm_num) n
    have h2 : (10 : Nat) ^ n ≤ 10 ^ (n + 1) :=
      Nat.pow_le_pow_right (by norm_num) (Nat.le_succ n)
    omega
  exact natToStrAux_spec (n + 1) n (Nat.succ_pos n) hlt

lemma parseDigits_natToStrChars (n : Nat) : parseDigits (natToStrChars n) = some n := by
  obtain ⟨hall, hne, hfold⟩ := natToStrChars_spec n
  unfold parseDigits
  rw [if_neg hne, if_pos hall]
  have := hfold 0
  simp only [zero_mul] at this
  rw [this, Nat.zero_add]

lemma parseDigits_pad2 (n : Nat) : parseDigits (pad2 n) = some n := by
  obtain ⟨hall, hne, hfold⟩ := natToStrChars_spec n
  unfold pad2
  by_cases h10 : n < 10
  · rw [if_pos h10]
    unfold parseDigits
    rw [if_neg (by simp), if_pos (by simp [hall])]
    simp only [List.foldl_cons]
    have hz : (0 : Nat) * 10 + charVal '0' = 0 := by decide
    rw [hz]
    have := hfold 0
    simp only [zero_mul] at this
    rw [this, Nat.zero_add]
  · rw [if_neg h10]
    exact parseDigits_natToStrChars n

lemma all_digits_pad2 (n : Nat) : (pad2 n).all Char.isDigit = true := by
  obtain ⟨hall, _, _⟩ := natToStrChars_spec n
  unfold pad2
  by_cases h10 : n < 10
  · rw [if_pos h10]; simp [hall]
  · rw [if_neg h10]; exact hall

lemma digit_ne_of_isDigit {c c2 : Char} (h : c.isDigit = true)
    (h2 : c2.isDigit = false) : c ≠ c2 := by
  intro he; rw [he, h2] at h; exact Bool.noConfusion h

/-! ### Lemmas: `splitOnChar` -/

lemma splitOnChar_ne_nil (sep : Char) : ∀ l, splitOnChar sep l ≠ [] := by
  intro l
  induction l with
  | nil => simp [splitOnChar]
  | cons c rest ih =>
    simp only [splitOnChar]
    cases hs : splitOnChar sep rest with
    | nil => exact absurd hs ih
    | cons h t =>
      by_cases hc : c = sep <;> simp [hc]

lemma splitOnChar_head (sep : Char) :
    ∀ l, (splitOnChar sep l).head? = some (l.takeWhile fun c => c != sep) := by
  intro l
  induction l with
  | nil => simp [splitOnChar]
  | cons c rest ih =>
    cases hs : splitOnChar sep rest with
    | nil => exact absurd hs (splitOnChar_ne_nil sep rest)
    | cons h t =>
      simp only [splitOnChar, hs]
      by_cases hc : c = sep
      · rw [if_pos hc]
        have hpred : (c != sep) = false := by simp [hc]
        simp [List.takeWhile_cons, hpred]
      · rw [if_neg hc]
        have hpred : (c != sep) = true := by simpa [bne_iff_ne] using hc
        have ih2 : h = rest.takeWhile fun x => x != sep := by
          rw [hs] at ih; simpa using ih
        simp [List.takeWhile_cons, hpred, ih2]

lemma splitOnChar_get1 (sep : Char) :
    ∀ l, (splitOnChar sep l).get? 1 =
      if l.count sep = 0 then none
      else some (((l.dropWhile fun c => c != sep).drop 1).takeWhile fun c => c != sep) := by
  intro l
  induction l with
  | nil => simp [splitOnChar]
  | cons c rest ih =>
    cases hs : splitOnChar sep rest with
    | nil => exact absurd hs (splitOnChar_ne_nil sep rest)
    | cons h t =>
      simp only [splitOnChar, hs]
      by_cases hc : c = sep
      · rw [if_pos hc]
        have hcount : ¬((c :: rest).count sep = 0) := by
          have hbe : (sep == c) = true := beq_iff_eq.mpr hc.symm
          simp [List.count_cons, hbe]
          exact fun _ => hc
        rw [if_neg hcount]
        have hpred : (c != sep) = false := by simp [hc]
        have hh : some h = some (rest.takeWhile fun x => x != sep) := by
          have hd := splitOnChar_head sep rest
          rw [hs] at hd
          simpa using hd
        simp only [List.get?_cons_succ, List.get?_cons_zero, List.dropWhile_cons, hpred,
          Bool.false_eq_true, if_false, List.drop_succ_cons, List.drop_zero]
        exact hh
      · rw [if_neg hc]
        have hbe : (sep == c) = false := beq_eq_false_iff_ne.mpr (Ne.symm hc)
        have hcnt : (c :: rest).count sep = rest.count sep := by
          simp [List.count_cons, hbe]
          exact hc
        have hpred : (c != sep) = true := by simpa [bne_iff_ne] using hc
        rw [hs] at ih
        simp only [List.get?_cons_succ, List.get?_cons_zero] at ih ⊢
        rw [hcnt]
        simp only [List.dropWhile_cons, hpred, if_true]
        exact ih

/-! ### Lemmas: sentinel pattern and year extraction -/

lemma fourDigitsAt_append (l v : List Char) (h : fourDigitsAt l = true) :
    fourDigitsAt (l ++ v) = true := by
  match l, h with
  | a :: b :: c :: d :: rest, h => simpa [fourDigitsAt, List.cons_append] using h
  | [], h => simp [fourDigitsAt] at h
  | [a], h => simp [fourDigitsAt] at h
  | [a, b], h => simp [fourDigitsAt] at h
  | [a, b, c], h => simp [fourDigitsAt] at h

lemma contains_exists_drop :
    ∀ l : List Char, containsSinglesFrom l = true → ∃ k, fourDigitsAt (l.drop k) = true := by
  intro l
  induction l with
  | nil => intro h; simp [containsSinglesFrom] at h
  | cons c rest ih =>
    intro h
    simp only [containsSinglesFrom, Bool.or_eq_true] at h
    rcases h with h | h
    · have h2 : listStartsWith singlesFromChars (c :: rest) = true ∧
          fourDigitsAt ((c :: rest).drop 13) = true := by
        simpa [sentinelAt] using h
      exact ⟨13, h2.2⟩
    · obtain ⟨k, hk⟩ := ih h
      exact ⟨k + 1, by simpa [List.drop_succ_cons] using hk⟩

lemma firstFourDigits_isSome_of_drop :
    ∀ (l : List Char) (k : Nat), fourDigitsAt (l.drop k) = true →
      (firstFourDigits l).isSome = true := by
  intro l
  induction l with
  | nil => intro k h; simp [fourDigitsAt] at h
  | cons c rest ih =>
    intro k h
    by_cases hf : fourDigitsAt (c :: rest) = true
    · simp [firstFourDigits, hf]
    · cases k with
      | zero => rw [List.drop_zero] at h; exact absurd h hf
      | succ k2 =>
        rw [List.drop_succ_cons] at h
        have := ih k2 h
        simpa [firstFourDigits, hf] using this

lemma joinSpace_mem_parts (s : String) :
    ∀ r : List String, s ∈ r → ∃ u v, joinSpace r = u ++ s.toList ++ v := by
  intro r
  induction r with
  | nil => intro h; simp at h
  | cons x rest ih =>
    intro h
    rcases List.mem_cons.mp h with he | hm
    · subst he
      cases rest with
      | nil => exact ⟨[], [], by simp [joinSpace]⟩
      | cons y t => exact ⟨[], ' ' :: joinSpace (y :: t), by simp [joinSpace]⟩
    · obtain ⟨u, v, huv⟩ := ih hm
      cases rest with
      | nil => simp at hm
      | cons y t =>
        refine ⟨x.toList ++ ' ' :: u, v, ?_⟩
        simp [joinSpace, huv, List.append_assoc]

lemma extractYear_isSome (r : RawRow) (h : isSentinelRow r = true) :
    (extractYear r).isSome = true := by
  unfold isSentinelRow at h
  obtain ⟨s, hs, hcontains⟩ := List.any_eq_true.mp h
  obtain ⟨k, hk⟩ := contains_exists_drop s.toList hcontains
  obtain ⟨u, v, huv⟩ := joinSpace_mem_parts s r hs
  unfold extractYear
  apply firstFourDigits_isSome_of_drop (joinSpace r) (u.length + k)
  rw [huv, List.append_assoc]
  have hdd : (u ++ (s.toList ++ v)).drop (u.length + k) = (s.toList ++ v).drop k := by
    rw [← List.drop_drop, List.drop_left]
  rw [hdd]
  by_cases hk4 : k ≤ s.toList.length
  · rw [List.drop_append_of_le_length hk4]
    exact fourDigitsAt_append _ v hk
  · exfalso
    have hnil : s.toList.drop k = [] :=
      List.drop_eq_nil_of_le (le_of_lt (lt_of_not_le hk4))
    rw [hnil] at hk
    simp [fourDigitsAt] at hk

/-! ### Lemmas: sentinel resolution versus the specification scan -/

lemma resolve_scan :
    ∀ (rows : List RawRow) (cur : Option Nat),
      ((rows.zip (ffill cur (rows.map fun r => if isSentinelRow r then extractYear r else none))).filter
          fun p => !isSentinelRow p.1)
        = claimScan cur rows := by
  intro rows
  induction rows with
  | nil => intro cur; rfl
  | cons r rest ih =>
    intro cur
    cases hs : isSentinelRow r with
    | true =>
      obtain ⟨y, hy2⟩ := Option.isSome_iff_exists.mp (extractYear_isSome r hs)
      simp [hs, hy2, ffill, claimScan, List.filter_cons, ih (some y)]
    | false =>
      simp [hs, ffill, claimScan, List.filter_cons, ih cur]

lemma const_ffill_filter (urlYear : Nat) :
    ∀ (rows : List RawRow) (cur : Option Nat), (∀ r ∈ rows, isSentinelRow r = false) →
      ((rows.zip (ffill cur (rows.map fun _ => some urlYear))).filter
          fun p => !isSentinelRow p.1)
        = rows.map fun r => (r, some urlYear) := by
  intro rows
  induction rows with
  | nil => intro cur _; rfl
  | cons r rest ih =>
    intro cur h
    have hr : isSentinelRow r = false := h r (List.mem_cons_self r rest)
    have hrest : ∀ x ∈ rest, isSentinelRow x = false :=
      fun x hx => h x (List.mem_cons_of_mem r hx)
    simp only [List.map_cons, ffill, List.zip_cons_cons, List.filter_cons, hr,
      Bool.not_false, if_true]
    exact congrArg (List.cons (r, some urlYear)) (ih (some urlYear) hrest)

lemma no_sentinel_resolve (urlYear : Nat) (rows : List RawRow)
    (h : rows.any isSentinelRow = false) :
    sentinelResolve urlYear rows = rows.map fun r => (r, some urlYear) := by
  unfold sentinelResolve initialYears
  rw [if_pos h]
  refine const_ffill_filter urlYear rows none ?_
  intro r hr
  rcases List.any_eq_false.mp h r hr with h2
  simpa using h2

lemma sentinelResolve_eq_claimResolve (urlYear : Nat) (rows : List RawRow) :
    sentinelResolve urlYear rows = claimResolve urlYear rows := by
  unfold claimResolve
  cases h : rows.any isSentinelRow with
  | false =>
    rw [if_neg (by simp)]
    exact no_sentinel_resolve urlYear rows h
  | true =>
    rw [if_pos rfl]
    unfold sentinelResolve initialYears
    rw [if_neg (by simp [h])]
    exact resolve_scan rows none

lemma claimScan_all_isSome :
    ∀ (rows : List RawRow) (cur : Option Nat), cur.isSome = true →
      ((claimScan cur rows).all fun p => p.2.isSome) = true := by
  intro rows
  induction rows with
  | nil => intro cur _; rfl
  | cons r rest ih =>
    intro cur h
    cases hs : isSentinelRow r with
    | true =>
      have hy := extractYear_isSome r hs
      simp [claimScan, hs, ih (extractYear r) hy]
    | false =>
      simp [claimScan, hs, List.all_cons, h, ih cur h]

lemma claimScan_none_decomp :
    ∀ rows : List RawRow, rows.any isSentinelRow = true →
      ∃ d, claimScan none rows
          = ((rows.takeWhile fun r => !isSentinelRow r).map fun r => (r, (none : Option Nat))) ++ d
        ∧ (d.all fun p => p.2.isSome) = true := by
  intro rows
  induction rows with
  | nil => intro h; simp at h
  | cons r rest ih =>
    intro h
    cases hs : isSentinelRow r with
    | true =>
      refine ⟨claimScan (extractYear r) rest, ?_, ?_⟩
      · simp [claimScan, hs, List.takeWhile_cons]
      · exact claimScan_all_isSome rest (extractYear r) (extractYear_isSome r hs)
    | false =>
      have hrest : rest.any isSentinelRow = true := by
        simpa [List.any_cons, hs] using h
      obtain ⟨d, hd, hall⟩ := ih hrest
      refine ⟨d, ?_, hall⟩
      simp [claimScan, hs, List.takeWhile_cons, hd]

/-! ### Lemmas: `mapOption` and the scrape loop -/

lemma mapOption_map_of_some {α β γ : Type} (f : α → Option β) (g : β → γ) (h2 : α → γ)
    (hfg : ∀ x e, f x = some e → g e = h2 x) :
    ∀ (l : List α) (es : List β), mapOption f l = some es → es.map g = l.map h2 := by
  intro l
  induction l with
  | nil =>
    intro es h
    simp only [mapOption, Option.some.injEq] at h
    subst h
    simp
  | cons x xs ih =>
    intro es h
    simp only [mapOption] at h
    cases hfx : f x with
    | none => rw [hfx] at h; simp at h
    | some y =>
      rw [hfx] at h
      cases hxs : mapOption f xs with
      | none => rw [hxs] at h; simp at h
      | some ys =>
        rw [hxs] at h
        simp only [Option.some.injEq] at h
        subst h
        simp [List.map_cons, hfg x y hfx, ih ys hxs]

lemma mapOption_none_of_any {α β : Type} (f : α → Option β) :
    ∀ l : List α, (l.any fun x => (f x).isNone) = true → mapOption f l = none := by
  intro l
  induction l with
  | nil => intro h; simp at h
  | cons x xs ih =>
    intro h
    simp only [List.any_cons, Bool.or_eq_true] at h
    simp only [mapOption]
    rcases h with h | h
    · have hx : f x = none := Option.isNone_iff_eq_none.mp h
      cases hm : mapOption f xs <;> simp [hx, hm]
    · rw [ih h]
      cases hfx : f x <;> rfl

lemma scrapeLoop_eq (fetch : String → Table) :
    ∀ (urls : List String) (acc : List (List NormalizedEntry)),
      scrapeLoop fetch urls acc
        = (mapOption (processPage fetch) urls).map fun pls => acc ++ pls := by
  intro urls
  induction urls with
  | nil => intro acc; simp [scrapeLoop, mapOption]
  | cons u rest ih =>
    intro acc
    simp only [scrapeLoop, mapOption]
    cases hp : processPage fetch u with
    | none => simp
    | some df =>
      cases hm : mapOption (processPage fetch) rest with
      | none => simp [ih (acc ++ [df]), hm]
      | some pls => simp [ih (acc ++ [df]), hm, List.append_assoc]

lemma scrapeLoop_none_of_mem (fetch : String → Table) :
    ∀ (urls : List String) (acc : List (List NormalizedEntry)) (url : String),
      url ∈ urls → processPage fetch url = none → scrapeLoop fetch urls acc = none := by
  intro urls
  induction urls with
  | nil => intro acc url h; simp at h
  | cons u rest ih =>
    intro acc url hmem hnone
    rcases List.mem_cons.mp hmem with he | hm
    · subst he
      simp [scrapeLoop, hnone]
    · simp only [scrapeLoop]
      cases hp : processPage fetch u with
      | none => rfl
      | some df => exact ih (acc ++ [df]) url hm hnone

/-! ### Lemmas: round-trip of serialized fields -/

lemma splitOnChar_sepFree (sep : Char) :
    ∀ l : List Char, (∀ c ∈ l, c ≠ sep) → splitOnChar sep l = [l] := by
  intro l
  induction l with
  | nil => intro _; rfl
  | cons c rest ih =>
    intro h
    have hc : c ≠ sep := h c (List.mem_cons_self c rest)
    have hrest : ∀ x ∈ rest, x ≠ sep := fun x hx => h x (List.mem_cons_of_mem c hx)
    simp only [splitOnChar, ih hrest]
    rw [if_neg hc]

lemma splitOnChar_append_sep (sep : Char) :
    ∀ (A rest : List Char), (∀ c ∈ A, c ≠ sep) →
      splitOnChar sep (A ++ sep :: rest) = A :: splitOnChar sep rest := by
  intro A
  induction A with
  | nil =>
    intro rest _
    simp only [List.nil_append, splitOnChar]
    cases hs : splitOnChar sep rest with
    | nil => exact absurd hs (splitOnChar_ne_nil sep rest)
    | cons h2 t => simp [hs]
  | cons a A2 ih =>
    intro rest h
    have ha : a ≠ sep := h a (List.mem_cons_self a A2)
    have hA2 : ∀ x ∈ A2, x ≠ sep := fun x hx => h x (List.mem_cons_of_mem a hx)
    simp only [List.cons_append, splitOnChar, List.append_eq, ih rest hA2]
    rw [if_neg ha]

lemma toList_mk (l : List Char) : (String.mk l).toList = l := rfl

lemma natToStrChars_ne (n : Nat) (c2 : Char) (h2 : c2.isDigit = false) :
    ∀ c ∈ natToStrChars n, c ≠ c2 := by
  intro c hc
  obtain ⟨hall, _, _⟩ := natToStrChars_spec n
  exact digit_ne_of_isDigit (List.all_eq_true.mp hall c hc) h2

lemma pad2_ne (n : Nat) (c2 : Char) (h2 : c2.isDigit = false) :
    ∀ c ∈ pad2 n, c ≠ c2 := by
  intro c hc
  exact digit_ne_of_isDigit (List.all_eq_true.mp (all_digits_pad2 n) c hc) h2

lemma parseDate_isoStr (d : Date) (h : d.valid = true) : parseDate (isoStr d) = some d := by
  unfold parseDate isoStr
  rw [toList_mk]
  have hnospace : ∀ c ∈ isoChars d, c ≠ ' ' := by
    intro c hc
    unfold isoChars at hc
    rcases List.mem_append.mp hc with h1 | h1
    · exact natToStrChars_ne d.year ' ' (by decide) c h1
    rcases List.mem_cons.mp h1 with h2 | h2
    · subst h2; decide
    rcases List.mem_append.mp h2 with h3 | h3
    · exact pad2_ne d.month ' ' (by decide) c h3
    rcases List.mem_cons.mp h3 with h4 | h4
    · subst h4; decide
    · exact pad2_ne d.day ' ' (by decide) c h4
  rw [splitOnChar_sepFree ' ' (isoChars d) hnospace]
  show parseIso (isoChars d) = some d
  have hsplit : splitOnChar '-' (isoChars d)
      = [natToStrChars d.year, pad2 d.month, pad2 d.day] := by
    unfold isoChars
    rw [splitOnChar_append_sep '-' _ _ (natToStrChars_ne d.year '-' (by decide))]
    rw [splitOnChar_append_sep '-' _ _ (pad2_ne d.month '-' (by decide))]
    rw [splitOnChar_sepFree '-' _ (pad2_ne d.day '-' (by decide))]
  unfold parseIso
  rw [hsplit]
  simp only [parseDigits_natToStrChars, parseDigits_pad2]
  unfold mkDate
  unfold Date.valid at h
  rw [if_pos h]

lemma entryWf_unpack (e : NormalizedEntry) (h : entryWf e = true) :
    e.singleName ≠ some "" ∧ e.artists ≠ "" ∧
    dateOk e.entryDate = true ∧ dateOk e.peakDate = true := by
  unfold entryWf at h
  simp only [Bool.and_eq_true, bne_iff_ne, ne_eq] at h
  exact ⟨h.1.1.1, h.1.1.2, h.1.2, h.2⟩

lemma strField_csvOptStr (o : Option String) (h : o ≠ some "") :
    strField (csvOptStr o) = o := by
  cases o with
  | none => rfl
  | some s =>
    have hs : ¬(s = "") := fun he => h (by rw [he])
    simp [csvOptStr, strField, hs]

lemma strField_of_ne (s : String) (h : s ≠ "") : strField s = some s := by
  simp [strField, h]

lemma numField_natToStr (n : Nat) : numField (natToStr n) = some n := by
  unfold numField natToStr
  rw [toList_mk]
  exact parseDigits_natToStrChars n

lemma numField_csvOptNat (o : Option Nat) : numField (csvOptNat o) = o := by
  cases o with
  | none => rfl
  | some n => exact numField_natToStr n

lemma parseDate_csvDate (o : Option Date) (h : dateOk o = true) :
    parseDate (csvDate o) = o := by
  cases o with
  | none => rfl
  | some d => exact parseDate_isoStr d (by simpa [dateOk] using h)

lemma loadRow_fields (e : NormalizedEntry) (hwf : entryWf e = true) :
    (loadRow (entryToRow e)).singleName = e.singleName ∧
    (loadRow (entryToRow e)).artists = some e.artists ∧
    (loadRow (entryToRow e)).peak = some e.peak ∧
    (loadRow (entryToRow e)).weeks = some e.weeks ∧
    (loadRow (entryToRow e)).year = e.year ∧
    (loadRow (entryToRow e)).entryDate = e.entryDate ∧
    (loadRow (entryToRow e)).peakDate = e.peakDate := by
  obtain ⟨hs, ha, hd1, hd2⟩ := entryWf_unpack e hwf
  refine ⟨?_, ?_, ?_, ?_, ?_, ?_, ?_⟩ <;>
    simp only [loadRow, entryToRow, List.getD_cons_zero, List.getD_cons_succ]
  · exact strField_csvOptStr e.singleName hs
  · exact strField_of_ne e.artists ha
  · exact numField_natToStr e.peak
  · exact numField_natToStr e.weeks
  · exact numField_csvOptNat e.year
  · exact parseDate_csvDate e.entryDate hd1
  · exact parseDate_csvDate e.peakDate hd2

lemma loadRow_key (e : NormalizedEntry) (hwf : entryWf e = true) :
    loadedKey (loadRow (entryToRow e)) = entryKey e := by
  obtain ⟨h1, h2, h3, h4, h5, _, _⟩ := loadRow_fields e hwf
  unfold loadedKey entryKey
  rw [h1, h2, h3, h4, h5]

lemma map_congr_mem {α β : Type} (l : List α) (f g : α → β)
    (h : ∀ a ∈ l, f a = g a) : l.map f = l.map g := by
  induction l with
  | nil => rfl
  | cons x xs ih =>
    simp only [List.map_cons]
    rw [h x (List.mem_cons_self x xs), ih fun a ha => h a (List.mem_cons_of_mem x ha)]

lemma all_filter_self {α : Type} (p : α → Bool) :
    ∀ l : List α, ((l.filter p).all p) = true := by
  intro l
  induction l with
  | nil => rfl
  | cons x xs ih =>
    rw [List.filter_cons]
    by_cases hx : p x = true
    · rw [if_pos hx]; simp [List.all_cons, hx, ih]
    · rw [if_neg hx]; exact ih

lemma flatten_nil_of_all_isEmpty :
    ∀ pls : List (List NormalizedEntry),
      (pls.all fun l => l.isEmpty) = true → pls.flatten = [] := by
  intro pls
  induction pls with
  | nil => intro _; rfl
  | cons l rest ih =>
    intro h
    simp only [List.all_cons, Bool.and_eq_true] at h
    cases l with
    | nil => simp only [List.flatten_cons, List.nil_append]; exact ih h.2
    | cons x xs => simp [List.isEmpty_cons] at h

/-! ### Claim theorems -/

/-- C1: for every processed page, row years follow the sentinel rules: with
no marker row, every surviving row is assigned the page's URL-derived year;
otherwise each surviving row is assigned the year extracted from the
nearest preceding marker row, each new marker overriding the previous one
(`claimScan` carries exactly that year; a row with no preceding marker has
no year to inherit and is assigned none), and this holds of the code's
forward-fill implementation `sentinelResolve`. -/
theorem sentinel_year_assignment (urlYear : Nat) (rows : List RawRow) :
    sentinelResolve urlYear rows = claimResolve urlYear rows :=
  sentinelResolve_eq_claimResolve urlYear rows

/-- C2 counterexample: on a multi-year page (URL year 2010) whose first
data row precedes the first sentinel marker, that row survives
normalization with a null Year, refuting "Year is non-null for every entry
that survives normalization, including a data row appearing before the
first sentinel marker". -/
theorem year_nonnull_counterexample :
    (scrape_data (some ["http://w/x_2010"]) cexFetch).map (fun ds => ds.map fun e => e.year)
      = Except.ok [none, some 2009] := by
  rfl

/-- C2 amended: Year is non-null for every surviving entry of a page with
no sentinel rows, and, on a page with sentinel rows, for every surviving
entry from the first marker onward; the entries preceding the first marker
survive with a null Year. -/
theorem year_nonnull_amended (urlYear : Nat) (rows : List RawRow) :
    (rows.any isSentinelRow = false →
      ((sentinelResolve urlYear rows).all fun p => p.2.isSome) = true) ∧
    (rows.any isSentinelRow = true →
      sentinelResolve urlYear rows
          = ((rows.takeWhile fun r => !isSentinelRow r).map fun r => (r, (none : Option Nat)))
            ++ ((sentinelResolve urlYear rows).drop
                (rows.takeWhile fun r => !isSentinelRow r).length) ∧
      (((sentinelResolve urlYear rows).drop
          (rows.takeWhile fun r => !isSentinelRow r).length).all fun p => p.2.isSome) = true) := by
  constructor
  · intro h
    rw [no_sentinel_resolve urlYear rows h]
    simp
  · intro h
    have hres : sentinelResolve urlYear rows = claimScan none rows := by
      unfold sentinelResolve initialYears
      rw [if_neg (by simp [h])]
      exact resolve_scan rows none
    obtain ⟨d, hd, hall⟩ := claimScan_none_decomp rows h
    have hlen : ((rows.takeWhile fun r => !isSentinelRow r).map
        fun r => (r, (none : Option Nat))).length
        = (rows.takeWhile fun r => !isSentinelRow r).length := List.length_map _ _
    have hdrop : (sentinelResolve urlYear rows).drop
        (rows.takeWhile fun r => !isSentinelRow r).length = d := by
      rw [hres, hd, ← hlen, List.drop_left]
    constructor
    · rw [hdrop, hres, hd]
    · rw [hdrop]; exact hall

/-- C2 amended witness: both branches instantiated — the markerless
single-row table, and the multi-year table from the first marker onward. -/
theorem year_nonnull_amended_witness :
    ((sentinelResolve 2010 goodTable.rows).all fun p => p.2.isSome) = true ∧
    (((sentinelResolve 2010 cexTable.rows).drop
        (cexTable.rows.takeWhile fun r => !isSentinelRow r).length).all
      fun p => p.2.isSome) = true :=
  ⟨(year_nonnull_amended 2010 goodTable.rows).1 (by rfl),
   ((year_nonnull_amended 2010 cexTable.rows).2 (by rfl)).2⟩

/-- C3 counterexample: on the multi-year page with URL year 2010, the row
assigned the sentinel year 2009 gets Peak Date parsed with the *URL* year
(February 10, 2010), not with its assigned year; parsing the same cleaned
cell with the assigned year would give February 10, 2009, a different
date. -/
theorem peak_date_counterexample :
    (scrape_data (some ["http://w/x_2010"]) cexFetch).map
        (fun ds => ds.map fun e => (e.year, e.peakDate))
      = Except.ok [(none, some ⟨2010, 1, 20⟩), (some 2009, some ⟨2010, 2, 10⟩)] ∧
    parseDate (cleanDate "February 10" ++ " " ++ yearCellStr (some 2009))
      = some ⟨2009, 2, 10⟩ ∧
    (some (⟨2010, 2, 10⟩ : Date) : Option Date) ≠ some ⟨2009, 2, 10⟩ := by
  refine ⟨by rfl, by rfl, by decide⟩

/-- C3 amended: every surviving row's Peak Date is the cleaned raw cell
(parenthetical substrings and bracketed citations stripped, whitespace
trimmed) with the page's URL-derived year appended, parsed as a calendar
date; a failed parse leaves the field null and the row is retained (the map
equality forces one output per surviving row). -/
theorem peak_date_amended (urlYear : Nat) (t : Table) (es : List NormalizedEntry)
    (h : processTable urlYear t = some es) :
    es.map (fun e => e.peakDate)
      = (sentinelResolve urlYear t.rows).map
          fun p => parseDate (cleanDate (p.1.getD 4 "") ++ " " ++ natToStr urlYear) := by
  refine mapOption_map_of_some (normalizeRow urlYear t.ncols) (fun e => e.peakDate)
    (fun p => parseDate (cleanDate (p.1.getD 4 "") ++ " " ++ natToStr urlYear)) ?_ _ es h
  intro p e hpe
  unfold normalizeRow at hpe
  cases h3 : firstRunNat (p.1.getD 3 "").toList with
  | none => rw [h3] at hpe; simp at hpe
  | some pk =>
    cases h5 : firstRunNat (p.1.getD 5 "").toList with
    | none => rw [h3, h5] at hpe; simp at hpe
    | some wk =>
      rw [h3, h5] at hpe
      simp only [Option.some.injEq] at hpe
      subst hpe
      rfl

/-- C3 amended witness: the single-row markerless table at URL year 2010. -/
theorem peak_date_amended_witness :
    [goodEntry].map (fun e => e.peakDate)
      = (sentinelResolve 2010 goodTable.rows).map
          fun p => parseDate (cleanDate (p.1.getD 4 "") ++ " " ++ natToStr 2010) :=
  peak_date_amended 2010 goodTable [goodEntry] (by rfl)

/-- C4 counterexample: a raw cell with exactly one double-quote character
normalizes to the text after the quote, not to null. -/
theorem single_name_counterexample :
    ("say \"hello".toList.count '"' = 1) ∧ singleNameOf "say \"hello" = some "hello" := by
  refine ⟨by decide, by rfl⟩

/-- C4 amended: with no double-quote character the Single Name is null;
otherwise it is the text after the first quote up to (exclusive) the second
quote if one exists — in particular, with exactly one quote the field holds
everything after that quote rather than null. -/
theorem single_name_amended (s : String) :
    singleNameOf s =
      if s.toList.count '"' = 0 then none
      else some (String.mk (((s.toList.dropWhile fun c => c != '"').drop 1).takeWhile
        fun c => c != '"')) := by
  unfold singleNameOf
  rw [splitOnChar_get1]
  by_cases h : s.toList.count '"' = 0
  · rw [if_pos h, if_pos h]; rfl
  · rw [if_neg h, if_neg h]; rfl

/-- C5: Peak and Weeks in Top Ten are the first maximal decimal digit run
of their raw cells converted to integers; a digit-free cell in a surviving
row makes the page's processing yield no result (the coercion raises), and
a failing page anywhere in the URL list aborts the whole scrape with a
coercion error, so no entries from that page reach any final dataset. -/
theorem weeks_peak_coercion (urlYear : Nat) (t : Table) (es : List NormalizedEntry)
    (fetch : String → Table) (urls : List String) (url : String) :
    (processTable urlYear t = some es →
      es.map (fun e => (some e.peak, some e.weeks))
        = (sentinelResolve urlYear t.rows).map
            fun p => (firstRunNat (p.1.getD 3 "").toList, firstRunNat (p.1.getD 5 "").toList)) ∧
    (((sentinelResolve urlYear t.rows).any fun p =>
        (firstRunNat (p.1.getD 3 "").toList).isNone
          || (firstRunNat (p.1.getD 5 "").toList).isNone) = true →
      processTable urlYear t = none) ∧
    (url ∈ urls → processPage fetch url = none →
      scrape_data (some urls) fetch = Except.error PyError.valueError) := by
  refine ⟨?_, ?_, ?_⟩
  · intro h
    refine mapOption_map_of_some (normalizeRow urlYear t.ncols) _ _ ?_ _ es h
    intro p e hpe
    unfold normalizeRow at hpe
    cases h3 : firstRunNat (p.1.getD 3 "").toList with
    | none => rw [h3] at hpe; simp at hpe
    | some pk =>
      cases h5 : firstRunNat (p.1.getD 5 "").toList with
      | none => rw [h3, h5] at hpe; simp at hpe
      | some wk =>
        rw [h3, h5] at hpe
        simp only [Option.some.injEq] at hpe
        subst hpe
        rfl
  · intro h
    unfold processTable
    apply mapOption_none_of_any
    obtain ⟨p, hp, hcond⟩ := List.any_eq_true.mp h
    refine List.any_eq_true.mpr ⟨p, hp, ?_⟩
    unfold normalizeRow
    have hcond2 : (firstRunNat (p.1.getD 3 "").toList).isNone = true ∨
        (firstRunNat (p.1.getD 5 "").toList).isNone = true := by
      simpa using hcond
    rcases hcond2 with hc | hc
    · have h3 : firstRunNat (p.1.getD 3 "").toList = none := Option.isNone_iff_eq_none.mp hc
      rw [h3]
      cases h5 : firstRunNat (p.1.getD 5 "").toList <;> rfl
    · have h5 : firstRunNat (p.1.getD 5 "").toList = none := Option.isNone_iff_eq_none.mp hc
      rw [h5]
      cases h3 : firstRunNat (p.1.getD 3 "").toList <;> rfl
  · intro hmem hnone
    show (match scrapeLoop fetch urls [] with
      | none => Except.error PyError.valueError
      | some allData => Except.ok allData.flatten) = Except.error PyError.valueError
    rw [scrapeLoop_none_of_mem fetch urls [] url hmem hnone]

/-- C5 witness: the digit-free "n/a" Weeks cell makes its table yield no
result and aborts the scrape of a URL list containing its page; the good
single-row table instantiates the extraction equality. -/
theorem weeks_peak_coercion_witness :
    processTable 2010 badTable = none ∧
    scrape_data (some ["http://w/x_2010"]) badFetch = Except.error PyError.valueError ∧
    [goodEntry].map (fun e => (some e.peak, some e.weeks))
      = (sentinelResolve 2010 goodTable.rows).map
          fun p => (firstRunNat (p.1.getD 3 "").toList, firstRunNat (p.1.getD 5 "").toList) :=
  ⟨(weeks_peak_coercion 2010 badTable [] badFetch [] "").2.1 (by rfl),
   (weeks_peak_coercion 2010 badTable [] badFetch ["http://w/x_2010"] "http://w/x_2010").2.2
     (List.mem_cons_self _ _) (by rfl),
   (weeks_peak_coercion 2010 goodTable [goodEntry] badFetch [] "").1 (by rfl)⟩

/-- C6: no row classified as a sentinel marker survives sentinel
resolution — every pair passed on to normalization and assembly has a
non-marker row. -/
theorem sentinel_rows_removed (urlYear : Nat) (rows : List RawRow) :
    ((sentinelResolve urlYear rows).all fun p => !isSentinelRow p.1) = true := by
  unfold sentinelResolve
  exact all_filter_self _ _

/-- C7: when every page processes successfully, the assembled dataset is
exactly the concatenation of the per-page entry lists in the order the
URLs were given (no reordering, no deduplication), and it is empty when
every page yields zero rows. -/
theorem dataset_concatenation (urls : List String) (fetch : String → Table)
    (pls : List (List NormalizedEntry))
    (h : mapOption (processPage fetch) urls = some pls) :
    scrape_data (some urls) fetch = Except.ok pls.flatten ∧
    ((pls.all fun l => l.isEmpty) = true → scrape_data (some urls) fetch = Except.ok []) := by
  have h1 : scrapeLoop fetch urls [] = some pls := by
    rw [scrapeLoop_eq fetch urls [], h]
    simp
  have h2 : scrape_data (some urls) fetch = Except.ok pls.flatten := by
    show (match scrapeLoop fetch urls [] with
      | none => Except.error PyError.valueError
      | some allData => Except.ok allData.flatten) = Except.ok pls.flatten
    rw [h1]
  refine ⟨h2, ?_⟩
  intro hall
  rw [h2, flatten_nil_of_all_isEmpty pls hall]

/-- C7 witness: two pages whose tables are a single marker row each yield
zero entries, and the assembled dataset is empty. -/
theorem dataset_concatenation_witness :
    scrape_data (some ["http://a_2010", "http://b_2011"]) markerFetch = Except.ok [] :=
  (dataset_concatenation ["http://a_2010", "http://b_2011"] markerFetch [[], []]
    (by rfl)).2 (by rfl)

/-- C8 counterexample: an entry whose Single Name is the empty string
serializes to an empty CSV field, which reloads as null, so the reloaded
(Single Name, Artist(s), Peak, Weeks, Year) tuples differ from the
original ones. -/
theorem roundtrip_counterexample :
    save_to_csv [emptyNameEntry] none "2025_10"
        = SaveOutcome.saved (savePath none "2025_10")
            (csvHeader :: [emptyNameEntry].map entryToRow)
            ("Data saved to " ++ savePath none "2025_10") ∧
    (load_data (csvHeader :: [emptyNameEntry].map entryToRow)).map loadedKey
      ≠ [emptyNameEntry].map entryKey := by
  refine ⟨by rfl, by decide⟩

/-- C8 amended: for a non-empty dataset whose present string fields are
non-empty and whose stored dates are representable calendar dates, saving
writes the serialized rows and reloading them yields entrywise-equal
(Single Name, Artist(s), Peak, Weeks, Year) tuples (hence the same set)
and equal date columns at calendar-day granularity. -/
theorem roundtrip_amended (ds : List NormalizedEntry) (fn : Option String) (now : String)
    (h1 : ds ≠ []) (h2 : ds.all entryWf = true) :
    save_to_csv ds fn now
        = SaveOutcome.saved (savePath fn now) (csvHeader :: ds.map entryToRow)
            ("Data saved to " ++ savePath fn now) ∧
    (load_data (csvHeader :: ds.map entryToRow)).map loadedKey = ds.map entryKey ∧
    ((load_data (csvHeader :: ds.map entryToRow)).map fun l => l.entryDate)
      = (ds.map fun e => e.entryDate) ∧
    ((load_data (csvHeader :: ds.map entryToRow)).map fun l => l.peakDate)
      = (ds.map fun e => e.peakDate) := by
  have hload : load_data (csvHeader :: ds.map entryToRow)
      = ds.map fun e => loadRow (entryToRow e) := by
    unfold load_data
    rw [List.drop_succ_cons, List.drop_zero, List.map_map]
    rfl
  refine ⟨?_, ?_, ?_, ?_⟩
  · unfold save_to_csv
    rw [if_neg h1]
  · rw [hload, List.map_map]
    refine map_congr_mem ds _ _ fun e he => ?_
    exact loadRow_key e (List.all_eq_true.mp h2 e he)
  · rw [hload, List.map_map]
    refine map_congr_mem ds _ _ fun e he => ?_
    exact (loadRow_fields e (List.all_eq_true.mp h2 e he)).2.2.2.2.2.1
  · rw [hload, List.map_map]
    refine map_congr_mem ds _ _ fun e he => ?_
    exact (loadRow_fields e (List.all_eq_true.mp h2 e he)).2.2.2.2.2.2

/-- C8 amended witness: the one-entry dataset with a non-empty Single Name
round-trips through serialization and reloading. -/
theorem roundtrip_amended_witness :
    save_to_csv [goodEntry] none "2025_10"
        = SaveOutcome.saved (savePath none "2025_10") (csvHeader :: [goodEntry].map entryToRow)
            ("Data saved to " ++ savePath none "2025_10") ∧
    (load_data (csvHeader :: [goodEntry].map entryToRow)).map loadedKey
      = [goodEntry].map entryKey ∧
    ((load_data (csvHeader :: [goodEntry].map entryToRow)).map fun l => l.entryDate)
      = ([goodEntry].map fun e => e.entryDate) ∧
    ((load_data (csvHeader :: [goodEntry].map entryToRow)).map fun l => l.peakDate)
      = ([goodEntry].map fun e => e.peakDate) :=
  roundtrip_amended [goodEntry] none "2025_10" (by decide) (by decide)

/-- C9: called with an empty dataset, `save_to_csv` writes nothing and
reports "No data to save.", whatever filename and timestamp it was
given. -/
theorem empty_save_no_write (fn : Option String) (now : String) :
    save_to_csv [] fn now = SaveOutcome.noData "No data to save." := by
  rfl

/-- C10: with its `urls` parameter left at the default `None`,
`scrape_data` raises a TypeError before consulting the fetcher at all
(the equation holds for every fetch function), rather than returning an
empty dataset; the empty dataset arises exactly from an explicitly passed
empty URL list. -/
theorem none_urls_type_error (fetch : String → Table) :
    scrape_data none fetch = Except.error PyError.typeError ∧
    scrape_data (some []) fetch = Except.ok [] :=
  ⟨rfl, rfl⟩

end Billboard
